import Mathlib

/-!
Shallow embedding of the concurrent web-fetch engine of this repository:

* `src/etl/data_collection/playwright_scraper_utils.py`
  (class `ConcurrentPlaywrightScraper`, `batch_search_businesses`), and
* `src/etl/data_collection/scrape_federal_corporations.py`
  (the HTTP-retry paginator in `main`).

Modelling conventions used throughout:

* Wall-clock time in the completion detector is measured in deciseconds
  (tenths of a second) so that all arithmetic stays in `Nat`:
  the poll interval 0.5 s is 5 ds, the grace period 3.0 s is 30 ds and the
  hard budget 8.0 s is 80 ds.  Page queries are modelled as instantaneous,
  so the k-th polling iteration runs at elapsed time `5 * k` ds.
* A Playwright/requests call that can raise is modelled as an
  `Option String` (`none` = the call returns normally, `some msg` = it
  raises an exception whose string form is `msg`) or, for calls producing a
  value, as `Except String α`.
* `asyncio.gather(..., return_exceptions=True)` returns one entry per task,
  in task order; a task's entry is either its returned value or the
  exception object it raised.  The per-task outcome is abstracted as a
  function `outcome : Nat -> Except String SearchResult` from the task's
  position to its gather entry.
* Elapsed durations recorded in outcomes (`time.time()` differences) are
  abstract parameters of type `Rat`.
-/

namespace UnionCoop

/-- Embedding of the dataclass `SearchResult`
(`playwright_scraper_utils.py`, lines 21-27).  The field defaults mirror the
dataclass defaults: `error_message = ""` and `search_time = 0.0`. -/
structure SearchResult where
  business_name : String
  html_content : String
  success : Bool
  error_message : String := ""
  search_time : ℚ := 0
deriving DecidableEq

/-! ### Completion detector: `_wait_for_results_smart` (lines 205-239)

One polling iteration issues three page queries in order: the
results-container query, the no-results-text query and the
loading-indicator query.  Each query either raises (`none`) or reports
whether the queried marker is present (`some b`).  A raised query sends the
iteration into the `except` branch of the source. -/

/-- Observation delivered by the page to the k-th polling iteration of
`_wait_for_results_smart`: for each of the three `query_selector` calls,
`none` means the call raises, `some b` means it returns and `b` tells
whether the marker is present. -/
structure PollObs where
  results : Option Bool
  noResults : Option Bool
  loading : Option Bool
deriving DecidableEq

/-- Poll interval of the detector: `asyncio.sleep(0.5)` = 5 deciseconds. -/
def pollIntervalDs : ℕ := 5

/-- Hard wall-clock budget of the detector: `max_wait = 8.0` s = 80 ds. -/
def maxWaitDs : ℕ := 80

/-- Grace period of the detector: the `> 3.0` s comparisons = 30 ds. -/
def graceDs : ℕ := 30

/-- Elapsed wall-clock time (in deciseconds) at the start of the k-th
polling iteration, under the instantaneous-query convention. -/
def elapsedDs (k : ℕ) : ℕ := pollIntervalDs * k

/-- Which exit of `_wait_for_results_smart` fired.  `resultsDetected`,
`noResultsDetected` and `settled` are the three `return`s in the `try`
block, `errSettled` is the `return` in the `except` branch, and `budget`
is the fall-through exit of the `while` loop. -/
inductive WaitReason where
  | resultsDetected
  | noResultsDetected
  | settled
  | errSettled
  | budget
deriving DecidableEq

/-- Exit record of `_wait_for_results_smart`: the exit taken and the index
of the polling iteration at which the function returned (for the `budget`
exit: the index at which the `while` guard failed). -/
structure WaitExit where
  reason : WaitReason
  poll : ℕ
deriving DecidableEq

/-- One step of the polling loop of `_wait_for_results_smart`
(lines 211-239), fuel-indexed.  `k` is the current poll index, so the
`while time.time() - start_time < max_wait` guard reads
`elapsedDs k < maxWaitDs` and the `time.time() - start_time > 3.0` checks
read `graceDs < elapsedDs k`.  The fuel only bounds the recursion depth:
the guard fails at `k = 16` at the latest, so any fuel with
`17 <= fuel + k` makes the fuel-exhaustion branch unreachable
(`waitSmartAux_fuel_irrelevant`). -/
def waitSmartAux (env : ℕ → PollObs) : ℕ → ℕ → WaitExit
  | 0, k => ⟨WaitReason.budget, k⟩
  | fuel + 1, k =>
    if elapsedDs k < maxWaitDs then
      match (env k).results with
      | none =>
        if graceDs < elapsedDs k then ⟨WaitReason.errSettled, k⟩
        else waitSmartAux env fuel (k + 1)
      | some true => ⟨WaitReason.resultsDetected, k⟩
      | some false =>
        match (env k).noResults with
        | none =>
          if graceDs < elapsedDs k then ⟨WaitReason.errSettled, k⟩
          else waitSmartAux env fuel (k + 1)
        | some true => ⟨WaitReason.noResultsDetected, k⟩
        | some false =>
          match (env k).loading with
          | none =>
            if graceDs < elapsedDs k then ⟨WaitReason.errSettled, k⟩
            else waitSmartAux env fuel (k + 1)
          | some true => waitSmartAux env fuel (k + 1)
          | some false =>
            if graceDs < elapsedDs k then ⟨WaitReason.settled, k⟩
            else waitSmartAux env fuel (k + 1)
    else ⟨WaitReason.budget, k⟩

/-- Embedding of `_wait_for_results_smart(page, max_wait=8.0)`: run the
polling loop from poll index 0 with enough fuel (17 iterations suffice
because the guard fails at `k = 16`). -/
def wait_for_results_smart (env : ℕ → PollObs) : WaitExit :=
  waitSmartAux env 17 0

/-! ### Fetch task: `search_business_optimized` (lines 111-203) -/

/-- Observation for one iteration of the search-button selector loop
(lines 158-167): `countRaises` = `button.count()` raises, `countZero` =
`count()` returns 0 (fall through, no click attempted), `clickRaises` =
`count() > 0` but `button.click(...)` raises, `clickOk` = the click
succeeds (`search_clicked = True; break`). -/
inductive SelectorObs where
  | countRaises
  | countZero
  | clickRaises
  | clickOk
deriving DecidableEq

/-- The ordered candidate submit-control selectors
(`search_button_selectors`, lines 147-155).  Quote characters inside the
CSS strings are omitted; no claim depends on the string contents, only on
the number and the order of the candidates. -/
def searchButtonSelectors : List String :=
  ["button[type=submit]",
   "input[type=submit]",
   "button:has-text(Search)",
   "button:has-text(SEARCH)",
   "input[value=Search]",
   "input[value=SEARCH]",
   "#nodeW20"]

/-- The selector loop (lines 157-167): try the candidates in order; the
first successful click sets `search_clicked` and breaks; a raised
`count`/`click` or a zero count moves on to the next candidate.  `i` is
the position of the current candidate. -/
def tryClickSelectors (obs : ℕ → SelectorObs) : List String → ℕ → Bool
  | [], _ => false
  | _ :: rest, i =>
    match obs i with
    | SelectorObs.clickOk => true
    | _ => tryClickSelectors obs rest (i + 1)

/-- Environment of one run of `search_business_optimized`: for every
await-site that can raise, whether it raises (and with what message).  The
cookie-banner click (lines 136-140) is swallowed by its own
`try/except: pass`, so its outcome never influences the result and is not
recorded here.  The context-pool lookup and page bookkeeping
(`new_page`, lines 120-121) happen before the inner `try`. -/
structure TaskEnv where
  newPage : Option String
  goto : Option String
  waitQuery : Option String
  fillQuery : Option String
  selectorObs : ℕ → SelectorObs
  loadState : Option String
  poll : ℕ → PollObs
  content : Except String String

/-- An awaited step that can raise: `none` = returns, `some msg` = raises
an exception whose string form is `msg`. -/
def stepRun (o : Option String) : Except String Unit :=
  match o with
  | none => Except.ok ()
  | some msg => Except.error msg

/-- The body of the outer `try` of `search_business_optimized`
(lines 118-192): sequence the awaited steps, raising aborts the body.
The selector loop failing every candidate raises
`Exception("Could not find or click the search button")` (line 170).
`_wait_for_results_smart` is called for effect only; it catches its own
exceptions and always returns, so it is a pure `let`. -/
def runTaskBody (env : TaskEnv) : Except String String := do
  stepRun env.newPage
  stepRun env.goto
  stepRun env.waitQuery
  stepRun env.fillQuery
  if tryClickSelectors env.selectorObs searchButtonSelectors 0 then
    pure ()
  else
    Except.error "Could not find or click the search button"
  stepRun env.loadState
  let _ := wait_for_results_smart env.poll
  env.content

/-- Embedding of `search_business_optimized` (lines 111-203): run the body;
a normal completion returns the success `SearchResult` (lines 184-189), any
exception is caught by the outer `except` and converted into a failure
`SearchResult` (lines 194-203).  `elapsed` is the measured
`time.time() - start_time` of the corresponding exit. -/
def search_business_optimized (env : TaskEnv) (business_name : String)
    (elapsed : ℚ) : SearchResult :=
  match runTaskBody env with
  | Except.ok html =>
    { business_name := business_name, html_content := html, success := true,
      search_time := elapsed }
  | Except.error msg =>
    { business_name := business_name, html_content := "", success := false,
      error_message := msg, search_time := elapsed }

/-! ### Resource pool: `start`, `_get_available_context`, context indexing -/

/-- Contexts created per browser in `start` (line 77):
`max(1, self.max_concurrent // self.browser_pool_size)`.  Python `//` on
non-negative ints is `Nat` division.  (For `browser_pool_size = 0` Python
raises `ZeroDivisionError`; the theorems below only use positive pool
sizes.) -/
def contexts_per_browser (max_concurrent browser_pool_size : ℕ) : ℕ :=
  max 1 (max_concurrent / browser_pool_size)

/-- The browser-launch loop of `start` (lines 59-83), tracking how many
browsers and contexts have been opened.  `launchOk i` tells whether the
i-th `chromium.launch` succeeds (context creation is modelled as always
succeeding; the claim under study concerns session-launch failure).
`remaining` counts the loop iterations still to run.  On a failed launch
the exception propagates out of `start`: the result is
`Except.error (browsersOpen, contextsOpen)` where the payload records the
resources already opened at that moment — `start` contains no cleanup
code, so nothing closes them on this path (`close` runs only via
`__aexit__`, which `async with` skips when `__aenter__` raises). -/
def start_loop (launchOk : ℕ → Bool) (cpb : ℕ) :
    ℕ → ℕ → ℕ → ℕ → Except (ℕ × ℕ) (ℕ × ℕ)
  | 0, _, browsers, contexts => Except.ok (browsers, contexts)
  | remaining + 1, i, browsers, contexts =>
    if launchOk i then
      start_loop launchOk cpb remaining (i + 1) (browsers + 1) (contexts + cpb)
    else
      Except.error (browsers, contexts)

/-- Embedding of `ConcurrentPlaywrightScraper.start` (lines 54-85):
launch `browser_pool_size` browsers, each contributing
`contexts_per_browser` contexts. -/
def start_model (browser_pool_size max_concurrent : ℕ)
    (launchOk : ℕ → Bool) : Except (ℕ × ℕ) (ℕ × ℕ) :=
  start_loop launchOk (contexts_per_browser max_concurrent browser_pool_size)
    browser_pool_size 0 0 0

/-- Embedding of the index computed by `_get_available_context`
(line 108): `len(self.context_pool) % len(self.context_pool) if
self.context_pool else 0`.  (This helper is defined but never called in
the repository.) -/
def get_available_context_index (poolLen : ℕ) : ℕ :=
  if poolLen ≠ 0 then poolLen % poolLen else 0

/-- The context lookup performed by the fetch task (line 120):
`self.context_pool[context_id % len(self.context_pool)]`.  `none` models
the `ZeroDivisionError` Python raises on an empty pool. -/
def acquire_context {α : Type} (pool : List α) (context_id : ℕ) : Option α :=
  pool.get? (context_id % pool.length)

/-- The context hint assigned to task `i` by `search_multiple_businesses`
(line 251): `context_id = i % len(self.context_pool)`. -/
def assigned_context_id (i poolLen : ℕ) : ℕ := i % poolLen

/-! ### Orchestrator: `search_multiple_businesses` (241-271) and
`batch_search_businesses` (275-295) -/

/-- The per-entry conversion of the gather-result loop (lines 260-269): an
exception entry becomes a failure `SearchResult` built from
`business_names[i]` with empty html and the exception's string — note
`search_time` is not passed, so it keeps the dataclass default `0.0`; a
value entry is passed through unchanged. -/
def collectOne (business_name : String) (r : Except String SearchResult) :
    SearchResult :=
  match r with
  | Except.ok sr => sr
  | Except.error e =>
    { business_name := business_name, html_content := "", success := false,
      error_message := e }

/-- Embedding of `search_multiple_businesses` (lines 241-271): one task per
input name, gathered with `return_exceptions=True` in task order
(`outcome i` is task i's gather entry), then converted entry-wise by the
result loop.  The i-th produced record pairs `business_names[i]` with
`outcome i`. -/
def search_multiple_businesses (business_names : List String)
    (outcome : ℕ → Except String SearchResult) : List SearchResult :=
  (List.range business_names.length).map
    (fun i => collectOne (business_names.getD i "") (outcome i))

/-- The batch loop of `batch_search_businesses` (lines 283-293), returning
the accumulated results and the number of inter-batch pauses
(`asyncio.sleep(2)` executions).  `o` is the loop variable `i` (the global
offset of the current batch) and `l` is `business_names[o:]`; the slice
`business_names[i:i+batch_size]` is `l.take batch_size` and the pause
condition `i + batch_size < len(business_names)` is
`batch_size < l.length`.  Task `j` of the batch is global item `o + j`.
The fuel only bounds the recursion: with a positive `batch_size` the loop
runs at most `l.length` iterations, so fuel `l.length` suffices. -/
def batch_run_aux (outcome : ℕ → Except String SearchResult)
    (batch_size : ℕ) : ℕ → ℕ → List String → List SearchResult × ℕ
  | 0, _, _ => ([], 0)
  | _ + 1, _, [] => ([], 0)
  | fuel + 1, o, x :: xs =>
    let l := x :: xs
    let br := search_multiple_businesses (l.take batch_size)
      (fun j => outcome (o + j))
    let rest := batch_run_aux outcome batch_size fuel (o + batch_size)
      (l.drop batch_size)
    (br ++ rest.1, if batch_size < l.length then rest.2 + 1 else rest.2)

/-- Embedding of `batch_search_businesses` (lines 275-295): process the
names in contiguous batches of `batch_size`, pausing between batches;
returns (all results, number of inter-batch pauses). -/
def batch_search_businesses (business_names : List String)
    (batch_size : ℕ) (outcome : ℕ → Except String SearchResult) :
    List SearchResult × ℕ :=
  batch_run_aux outcome batch_size business_names.length 0 business_names

/-- The contiguous batches the loop of `batch_search_businesses` slices
out: `business_names[i:i+batch_size]` for `i = 0, batch_size, ...`
(fuel-indexed like `batch_run_aux`). -/
def toBatchesAux : ℕ → ℕ → List String → List (List String)
  | 0, _, _ => []
  | _ + 1, _, [] => []
  | fuel + 1, b, x :: xs => (x :: xs).take b :: toBatchesAux fuel b ((x :: xs).drop b)

/-- The list of batches of `batch_search_businesses` for a given input
list and batch size. -/
def toBatches (batch_size : ℕ) (business_names : List String) :
    List (List String) :=
  toBatchesAux business_names.length batch_size business_names

/-! ### Concurrency limiter: `asyncio.Semaphore(max_concurrent)` -/

/-- State of the limiter semaphore (`self.semaphore`, line 43) together
with the number of tasks currently between the acquire point and the
release point of `async with self.semaphore` (line 117). -/
structure SemState where
  permits : ℕ
  holders : ℕ
deriving DecidableEq

/-- Semantics of the structured `async with self.semaphore` usage: a task
may pass the acquire point only when a permit is available
(`asyncio.Semaphore` suspends it otherwise), and only a current holder
passes the release point.  Any interleaving of tasks is a sequence of
these steps. -/
inductive SemStep : SemState → SemState → Prop where
  | acquire (s : SemState) (h : 0 < s.permits) :
      SemStep s ⟨s.permits - 1, s.holders + 1⟩
  | release (s : SemState) (h : 0 < s.holders) :
      SemStep s ⟨s.permits + 1, s.holders - 1⟩

/-- Initial semaphore state: `asyncio.Semaphore(max_concurrent)` with no
task in flight. -/
def semInit (max_concurrent : ℕ) : SemState := ⟨max_concurrent, 0⟩

/-- The states the limiter can reach under any schedule of task
interleavings. -/
def SemReachable (max_concurrent : ℕ) (s : SemState) : Prop :=
  Relation.ReflTransGen SemStep (semInit max_concurrent) s

/-! ### HTTP-retry paginator: `scrape_federal_corporations.main` -/

/-- Backoff waited after a failed (non-final) attempt number `attempt`
(0-based): `wait_time = 2 ** (attempt + 1)` seconds (line 115). -/
def backoff_wait (attempt : ℕ) : ℕ := 2 ^ (attempt + 1)

/-- The retry loop `for attempt in range(max_retries)` (lines 102-117) over
the list of remaining attempt numbers.  `succeedsAt a` tells whether the
GET of attempt `a` succeeds.  Returns (successful attempt if any, backoff
waits performed in order, number of attempts made).  On a failure at the
last attempt (`attempt + 1 == max_retries`, i.e. an empty tail) the loop
aborts without waiting. -/
def retry_over (succeedsAt : ℕ → Bool) : List ℕ → Option ℕ × List ℕ × ℕ
  | [] => (none, ([], 0))
  | a :: rest =>
    if succeedsAt a then (some a, ([], 1))
    else
      match rest with
      | [] => (none, ([], 1))
      | _ :: _ =>
        let r := retry_over succeedsAt rest
        (r.1, (backoff_wait a :: r.2.1, r.2.2 + 1))

/-- Embedding of one page's retried fetch in `main` (lines 101-117):
attempts numbered `0, ..., max_retries - 1`. -/
def fetch_page_with_retries (succeedsAt : ℕ → Bool) (max_retries : ℕ) :
    Option ℕ × List ℕ × ℕ :=
  retry_over succeedsAt (List.range max_retries)

/-! ## Supporting lemmas: completion detector -/

/-- The `while` guard in decisecond units: elapsed time below the 8 s
budget exactly at poll indices below 16. -/
theorem elapsed_lt_maxWait_iff (k : ℕ) : elapsedDs k < maxWaitDs ↔ k < 16 := by
  simp only [elapsedDs, pollIntervalDs, maxWaitDs]
  omega

/-- The grace-period check in decisecond units: elapsed time above 3 s
exactly at poll indices above 6. -/
theorem grace_lt_elapsed_iff (k : ℕ) : graceDs < elapsedDs k ↔ 6 < k := by
  simp only [elapsedDs, pollIntervalDs, graceDs]
  omega

/-- Once the guard fails (poll index at least 16) the loop exits through
the budget path, whatever the fuel. -/
theorem waitSmartAux_budget (env : ℕ → PollObs) (fuel k : ℕ) (h : 16 ≤ k) :
    waitSmartAux env fuel k = ⟨WaitReason.budget, k⟩ := by
  cases fuel with
  | zero => rfl
  | succ f =>
    have hg : ¬ elapsedDs k < maxWaitDs := by
      rw [elapsed_lt_maxWait_iff]
      omega
    simp only [waitSmartAux, if_neg hg]

/-- One guarded iteration either returns at the current poll index or
recurses at the next one. -/
theorem waitSmartAux_step (env : ℕ → PollObs) (f k : ℕ)
    (h : elapsedDs k < maxWaitDs) :
    (∃ r, waitSmartAux env (f + 1) k = ⟨r, k⟩) ∨
      waitSmartAux env (f + 1) k = waitSmartAux env f (k + 1) := by
  rcases hr : (env k).results with _ | rb
  · simp only [waitSmartAux, if_pos h, hr]
    split
    · exact Or.inl ⟨_, rfl⟩
    · exact Or.inr rfl
  · cases rb
    · rcases hn : (env k).noResults with _ | nb
      · simp only [waitSmartAux, if_pos h, hr, hn]
        split
        · exact Or.inl ⟨_, rfl⟩
        · exact Or.inr rfl
      · cases nb
        · rcases hl : (env k).loading with _ | lb
          · simp only [waitSmartAux, if_pos h, hr, hn, hl]
            split
            · exact Or.inl ⟨_, rfl⟩
            · exact Or.inr rfl
          · cases lb
            · simp only [waitSmartAux, if_pos h, hr, hn, hl]
              split
              · exact Or.inl ⟨_, rfl⟩
              · exact Or.inr rfl
            · simp only [waitSmartAux, if_pos h, hr, hn, hl]
              exact Or.inr trivial
        · simp only [waitSmartAux, if_pos h, hr, hn]
          exact Or.inl ⟨_, rfl⟩
    · simp only [waitSmartAux, if_pos h, hr]
      exact Or.inl ⟨_, rfl⟩

/-- The fuel value is irrelevant as long as it cannot run out before the
guard fails: the loop is fully determined by the guard, as in the source. -/
theorem waitSmartAux_fuel_irrelevant (env : ℕ → PollObs) :
    ∀ f₁ f₂ k, 17 ≤ f₁ + k → 17 ≤ f₂ + k →
      waitSmartAux env f₁ k = waitSmartAux env f₂ k := by
  intro f₁
  induction f₁ with
  | zero =>
    intro f₂ k h1 h2
    rw [waitSmartAux_budget env 0 k (by omega), waitSmartAux_budget env f₂ k (by omega)]
  | succ f ih =>
    intro f₂ k h1 h2
    by_cases hk : 16 ≤ k
    · rw [waitSmartAux_budget env _ k hk, waitSmartAux_budget env f₂ k hk]
    · obtain ⟨g, rfl⟩ : ∃ g, f₂ = g + 1 := ⟨f₂ - 1, by omega⟩
      have hrec : waitSmartAux env f (k + 1) = waitSmartAux env g (k + 1) :=
        ih g (k + 1) (by omega) (by omega)
      simp only [waitSmartAux, hrec]

/-- Whatever the environment does, the loop never runs past poll index 16:
the detector always returns by the time the guard fails. -/
theorem waitSmartAux_poll_le (env : ℕ → PollObs) :
    ∀ fuel k, 17 ≤ fuel + k → k ≤ 16 → (waitSmartAux env fuel k).poll ≤ 16 := by
  intro fuel
  induction fuel with
  | zero => intro k h1 h2; omega
  | succ f ih =>
    intro k h1 h2
    by_cases hk : 16 ≤ k
    · rw [waitSmartAux_budget env _ k hk]
      show k ≤ 16
      omega
    · have hguard : elapsedDs k < maxWaitDs := (elapsed_lt_maxWait_iff k).mpr (by omega)
      rcases waitSmartAux_step env f k hguard with ⟨r, hr⟩ | hr
      · rw [hr]
        show k ≤ 16
        omega
      · rw [hr]
        exact ih (k + 1) (by omega) (by omega)

/-- If no marker ever appears but the loading indicator is present at
every poll (and no query raises), the loop only ever takes the
sleep-and-retry branch until the guard fails at poll 16. -/
theorem waitSmartAux_loading_budget (env : ℕ → PollObs)
    (h : ∀ k, (env k).results = some false ∧ (env k).noResults = some false ∧
      (env k).loading = some true) :
    ∀ fuel k, 17 ≤ fuel + k → k ≤ 16 →
      waitSmartAux env fuel k = ⟨WaitReason.budget, 16⟩ := by
  intro fuel
  induction fuel with
  | zero => intro k h1 h2; omega
  | succ f ih =>
    intro k h1 h2
    by_cases hk : k = 16
    · subst hk
      exact waitSmartAux_budget env _ 16 le_rfl
    · have hguard : elapsedDs k < maxWaitDs := (elapsed_lt_maxWait_iff k).mpr (by omega)
      obtain ⟨hr, hn, hl⟩ := h k
      simp only [waitSmartAux, if_pos hguard, hr, hn, hl]
      exact ih (k + 1) (by omega) (by omega)

/-- If every poll's first page query raises, every iteration lands in the
`except` branch; the first such iteration past the 3 s grace period
(poll 7, elapsed 3.5 s) returns. -/
theorem waitSmartAux_raising (env : ℕ → PollObs)
    (h : ∀ k, (env k).results = none) :
    ∀ fuel k, 17 ≤ fuel + k → k ≤ 7 →
      waitSmartAux env fuel k = ⟨WaitReason.errSettled, 7⟩ := by
  intro fuel
  induction fuel with
  | zero => intro k h1 h2; omega
  | succ f ih =>
    intro k h1 h2
    have hguard : elapsedDs k < maxWaitDs := (elapsed_lt_maxWait_iff k).mpr (by omega)
    by_cases hk : k = 7
    · subst hk
      have hg : graceDs < elapsedDs 7 := (grace_lt_elapsed_iff 7).mpr (by omega)
      simp only [waitSmartAux, if_pos hguard, h 7, if_pos hg]
    · have hg : ¬ graceDs < elapsedDs k := by
        rw [grace_lt_elapsed_iff]
        omega
      simp only [waitSmartAux, if_pos hguard, h k, if_neg hg]
      exact ih (k + 1) (by omega) (by omega)

/-! ## Claim C2 -/

/-- C2 counterexample: an environment where neither the results-container
marker nor the no-results text marker ever appears, and the
loading-indicator query (truthfully) reports no loading indicator either.
The detector exits through the grace-period heuristic at poll 7, elapsed
3.5 s — strictly before the 8 s hard budget — so the claim that under this
precondition the loop terminates at the hard budget, not earlier, is
false on the code. -/
theorem wait_smart_terminates_early_counterexample :
    wait_for_results_smart (fun _ => ⟨some false, some false, some false⟩) =
      ⟨WaitReason.settled, 7⟩ ∧
    elapsedDs (wait_for_results_smart
      (fun _ => ⟨some false, some false, some false⟩)).poll < maxWaitDs := by
  decide

/-- C2 (amended): if no results-container marker and no no-results text
marker ever appears AND a loading/processing indicator is present at every
poll (no page query raising), the polling loop terminates at the hard
wall-clock budget (8 s, poll index 16), not earlier and not later than one
poll interval (0.5 s) past it. -/
theorem wait_smart_budget_exit (env : ℕ → PollObs)
    (h : ∀ k, (env k).results = some false ∧ (env k).noResults = some false ∧
      (env k).loading = some true) :
    wait_for_results_smart env = ⟨WaitReason.budget, 16⟩ ∧
    maxWaitDs ≤ elapsedDs (wait_for_results_smart env).poll ∧
    elapsedDs (wait_for_results_smart env).poll ≤ maxWaitDs + pollIntervalDs := by
  have h16 : wait_for_results_smart env = ⟨WaitReason.budget, 16⟩ :=
    waitSmartAux_loading_budget env h 17 0 (by omega) (by omega)
  refine ⟨h16, ?_, ?_⟩ <;> rw [h16] <;> decide

/-- Witness for C2 (amended) at a concrete environment with the loading
indicator permanently present. -/
theorem wait_smart_budget_exit_witness :
    wait_for_results_smart (fun _ => ⟨some false, some false, some true⟩) =
      ⟨WaitReason.budget, 16⟩ ∧
    maxWaitDs ≤ elapsedDs (wait_for_results_smart
      (fun _ => ⟨some false, some false, some true⟩)).poll ∧
    elapsedDs (wait_for_results_smart
      (fun _ => ⟨some false, some false, some true⟩)).poll ≤
      maxWaitDs + pollIntervalDs :=
  wait_smart_budget_exit (fun _ => ⟨some false, some false, some true⟩)
    (fun _ => ⟨rfl, rfl, rfl⟩)

/-! ## Claim C10 -/

/-- C10: the completion detector never propagates an exception to its
caller — in the embedding it is a total function into `WaitExit` over every
environment, including ones whose page queries raise at every poll — and
(first conjunct) for every environment it returns within the `max_wait`
budget plus one poll interval; (second conjunct) under persistently failing
queries it returns through the `except` branch at poll 7, i.e. after the
3-second grace period has elapsed, still within the budget. -/
theorem wait_smart_never_raises_and_bounded :
    (∀ env : ℕ → PollObs,
      elapsedDs (wait_for_results_smart env).poll ≤ maxWaitDs + pollIntervalDs) ∧
    (∀ env : ℕ → PollObs, (∀ k, (env k).results = none) →
      wait_for_results_smart env = ⟨WaitReason.errSettled, 7⟩ ∧
      graceDs < elapsedDs (wait_for_results_smart env).poll ∧
      elapsedDs (wait_for_results_smart env).poll ≤ maxWaitDs + pollIntervalDs) := by
  constructor
  · intro env
    have hle : (wait_for_results_smart env).poll ≤ 16 :=
      waitSmartAux_poll_le env 17 0 (by omega) (by omega)
    simp only [elapsedDs, pollIntervalDs, maxWaitDs]
    omega
  · intro env h
    have h7 : wait_for_results_smart env = ⟨WaitReason.errSettled, 7⟩ :=
      waitSmartAux_raising env h 17 0 (by omega) (by omega)
    refine ⟨h7, ?_, ?_⟩ <;> rw [h7] <;> decide

/-- Witness for C10 at the environment whose every page query raises. -/
theorem wait_smart_never_raises_and_bounded_witness :
    elapsedDs (wait_for_results_smart (fun _ => ⟨none, none, none⟩)).poll ≤
      maxWaitDs + pollIntervalDs ∧
    wait_for_results_smart (fun _ => ⟨none, none, none⟩) =
      ⟨WaitReason.errSettled, 7⟩ ∧
    graceDs < elapsedDs (wait_for_results_smart (fun _ => ⟨none, none, none⟩)).poll ∧
    elapsedDs (wait_for_results_smart (fun _ => ⟨none, none, none⟩)).poll ≤
      maxWaitDs + pollIntervalDs :=
  ⟨wait_smart_never_raises_and_bounded.1 (fun _ => ⟨none, none, none⟩),
   wait_smart_never_raises_and_bounded.2 (fun _ => ⟨none, none, none⟩)
     (fun _ => rfl)⟩

/-! ## Supporting lemmas: HTTP-retry paginator -/

/-- One unfolding of the retry loop on a failed, non-final attempt: record
the backoff wait, count the attempt and continue with the tail. -/
theorem retry_over_cons_cons (succeedsAt : ℕ → Bool) (a b : ℕ) (t : List ℕ)
    (hs : succeedsAt a = false) :
    retry_over succeedsAt (a :: b :: t) =
      ((retry_over succeedsAt (b :: t)).1,
       (backoff_wait a :: (retry_over succeedsAt (b :: t)).2.1,
        (retry_over succeedsAt (b :: t)).2.2 + 1)) := by
  conv_lhs => rw [retry_over]
  simp [hs]

/-- The retry loop performs at most one attempt per remaining attempt
number. -/
theorem retry_over_attempts_le (succeedsAt : ℕ → Bool) :
    ∀ l : List ℕ, (retry_over succeedsAt l).2.2 ≤ l.length := by
  intro l
  induction l with
  | nil => simp [retry_over]
  | cons a rest ih =>
    cases hs : succeedsAt a with
    | true => simp [retry_over, hs]
    | false =>
      cases rest with
      | nil => simp [retry_over, hs]
      | cons b t =>
        rw [retry_over_cons_cons succeedsAt a b t hs]
        have := ih
        simp only [List.length_cons] at this ⊢
        omega

/-- The retry loop performs at most one backoff wait per remaining attempt
number. -/
theorem retry_over_waits_le (succeedsAt : ℕ → Bool) :
    ∀ l : List ℕ, (retry_over succeedsAt l).2.1.length ≤ l.length := by
  intro l
  induction l with
  | nil => simp [retry_over]
  | cons a rest ih =>
    cases hs : succeedsAt a with
    | true => simp [retry_over, hs]
    | false =>
      cases rest with
      | nil => simp [retry_over, hs]
      | cons b t =>
        rw [retry_over_cons_cons succeedsAt a b t hs]
        have := ih
        simp only [List.length_cons] at this ⊢
        omega

/-- The i-th backoff wait performed by the retry loop is the backoff of
the i-th attempt number of the list: waits are collected in attempt
order. -/
theorem retry_over_waits_get (succeedsAt : ℕ → Bool) :
    ∀ (l : List ℕ) (i : ℕ), i < (retry_over succeedsAt l).2.1.length →
      (retry_over succeedsAt l).2.1[i]? = (l[i]?).map backoff_wait := by
  intro l
  induction l with
  | nil => intro i h; simp [retry_over] at h
  | cons a rest ih =>
    intro i h
    cases hs : succeedsAt a with
    | true => simp [retry_over, hs] at h
    | false =>
      cases rest with
      | nil => simp [retry_over, hs] at h
      | cons b t =>
        rw [retry_over_cons_cons succeedsAt a b t hs] at h ⊢
        cases i with
        | zero => simp
        | succ j =>
          have hj : j < (retry_over succeedsAt (b :: t)).2.1.length := by
            simpa using h
          simpa using ih j hj

/-! ## Claim C3 -/

/-- C3 counterexample: with every request failing, the delays actually
waited across the five attempts of one page are 2, 4, 8, 16 seconds —
`2 ** (attempt + 1)`, not `2 ** attempt`: the delay after failed attempt 0
is 2 s, not `2 ^ 0 = 1` s. -/
theorem retry_backoff_counterexample :
    (fetch_page_with_retries (fun _ => false) 5).2.1 = [2, 4, 8, 16] ∧
    (fetch_page_with_retries (fun _ => false) 5).2.1[0]? ≠
      some (2 ^ (0 : ℕ)) := by
  decide

/-- C3 (amended): for every retry attempt number `attempt` (0-based) of
the HTTP-retry paginator, the backoff delay waited after that failed
attempt (the i-th wait performed) is `2 ^ (attempt + 1)` seconds, and no
more than 5 attempts are made per page before aborting. -/
theorem retry_backoff_and_cap (succeedsAt : ℕ → Bool) (i : ℕ)
    (hi : i < (fetch_page_with_retries succeedsAt 5).2.1.length) :
    (fetch_page_with_retries succeedsAt 5).2.2 ≤ 5 ∧
    (fetch_page_with_retries succeedsAt 5).2.1[i]? = some (2 ^ (i + 1)) := by
  constructor
  · simpa using retry_over_attempts_le succeedsAt (List.range 5)
  · have hlen := retry_over_waits_le succeedsAt (List.range 5)
    have h5 : i < 5 := by
      have := lt_of_lt_of_le hi hlen
      simpa using this
    have hw := retry_over_waits_get succeedsAt (List.range 5) i hi
    rw [show fetch_page_with_retries succeedsAt 5 =
        retry_over succeedsAt (List.range 5) from rfl, hw,
      List.getElem?_range h5]
    rfl

/-- Witness for C3 (amended): the never-succeeding page, first wait. -/
theorem retry_backoff_and_cap_witness :
    (fetch_page_with_retries (fun _ => false) 5).2.2 ≤ 5 ∧
    (fetch_page_with_retries (fun _ => false) 5).2.1[0]? =
      some (2 ^ (0 + 1)) :=
  retry_backoff_and_cap (fun _ => false) 0 (by decide)

/-! ## Supporting lemmas: pool initialization -/

/-- If every remaining launch succeeds, the launch loop opens exactly one
browser and `cpb` contexts per iteration. -/
theorem start_loop_ok (launchOk : ℕ → Bool) (cpb : ℕ) :
    ∀ r i bs cs, (∀ j, j < r → launchOk (i + j) = true) →
      start_loop launchOk cpb r i bs cs = Except.ok (bs + r, cs + r * cpb) := by
  intro r
  induction r with
  | zero => intro i bs cs h; simp [start_loop]
  | succ m ih =>
    intro i bs cs h
    have h0 : launchOk i = true := by simpa using h 0 (by omega)
    have hs : ∀ j, j < m → launchOk (i + 1 + j) = true := by
      intro j hj
      have := h (j + 1) (by omega)
      simpa [Nat.add_assoc, Nat.add_comm 1 j] using this
    simp only [start_loop, h0, if_true]
    rw [ih (i + 1) (bs + 1) (cs + cpb) hs]
    have e1 : bs + 1 + m = bs + (m + 1) := by omega
    have e2 : cs + cpb + m * cpb = cs + (m + 1) * cpb := by
      rw [Nat.succ_mul]
      omega
    rw [e1, e2]

/-- If the first launch failure happens at offset `f` into the remaining
iterations, the loop raises there with `f` browsers and `f * cpb` contexts
already opened (and never closed by `start`). -/
theorem start_loop_fail (launchOk : ℕ → Bool) (cpb : ℕ) :
    ∀ f r i bs cs, f < r → launchOk (i + f) = false →
      (∀ j, j < f → launchOk (i + j) = true) →
      start_loop launchOk cpb r i bs cs = Except.error (bs + f, cs + f * cpb) := by
  intro f
  induction f with
  | zero =>
    intro r i bs cs hr hf _
    obtain ⟨m, rfl⟩ : ∃ m, r = m + 1 := ⟨r - 1, by omega⟩
    have hf0 : launchOk i = false := by simpa using hf
    simp [start_loop, hf0]
  | succ g ih =>
    intro r i bs cs hr hf hpre
    obtain ⟨m, rfl⟩ : ∃ m, r = m + 1 := ⟨r - 1, by omega⟩
    have h0 : launchOk i = true := by simpa using hpre 0 (by omega)
    have hf1 : launchOk (i + 1 + g) = false := by
      have : i + 1 + g = i + (g + 1) := by omega
      rw [this]
      exact hf
    have hpre1 : ∀ j, j < g → launchOk (i + 1 + j) = true := by
      intro j hj
      have := hpre (j + 1) (by omega)
      simpa [Nat.add_assoc, Nat.add_comm 1 j] using this
    simp only [start_loop, h0, if_true]
    rw [ih m (i + 1) (bs + 1) (cs + cpb) (by omega) hf1 hpre1]
    have e1 : bs + 1 + g = bs + (g + 1) := by omega
    have e2 : cs + cpb + g * cpb = cs + (g + 1) * cpb := by
      rw [Nat.succ_mul]
      omega
    rw [e1, e2]

/-! ## Claim C4 -/

/-- C4 counterexample: browser pool of size 3, `max_concurrent = 5`, the
first `chromium.launch` succeeds and the second fails.  `start` raises out
(fatal, as claimed) but with 1 browser and 1 context
(`max(1, 5 // 3) = 1`) already opened and nothing closing them: the
error payload records the resources still open when the exception left
`start`, refuting the claim that resources created before the failure are
released. -/
theorem start_no_cleanup_counterexample :
    start_model 3 5 (fun i => i == 0) = Except.error (1, 1) := rfl

/-- C4 (amended): `start` creates `browser_pool_size` sessions each with
`max(1, max_concurrent / browser_pool_size)` contexts when every launch
succeeds; if a launch fails partway through, the exception propagates
(fatal — no pool is returned), but the sessions and contexts created
before the failure are left open: `start` performs no cleanup on that
path. -/
theorem start_counts_and_fatal (browser_pool_size max_concurrent : ℕ)
    (launchOk : ℕ → Bool) :
    ((∀ i, i < browser_pool_size → launchOk i = true) →
      start_model browser_pool_size max_concurrent launchOk =
        Except.ok (browser_pool_size,
          browser_pool_size * contexts_per_browser max_concurrent browser_pool_size)) ∧
    (∀ f, f < browser_pool_size → launchOk f = false →
      (∀ i, i < f → launchOk i = true) →
      start_model browser_pool_size max_concurrent launchOk =
        Except.error (f, f * contexts_per_browser max_concurrent browser_pool_size)) := by
  constructor
  · intro h
    have := start_loop_ok launchOk
      (contexts_per_browser max_concurrent browser_pool_size)
      browser_pool_size 0 0 0 (by intro j hj; simpa using h j hj)
    simpa [start_model] using this
  · intro f hf hfail hpre
    have := start_loop_fail launchOk
      (contexts_per_browser max_concurrent browser_pool_size)
      f browser_pool_size 0 0 0 hf (by simpa using hfail)
      (by intro j hj; simpa using hpre j hj)
    simpa [start_model] using this

/-- Witness for C4 (amended) at the concrete failing-second-launch run. -/
theorem start_counts_and_fatal_witness :
    start_model 3 5 (fun i => i == 0) =
      Except.error (1, 1 * contexts_per_browser 5 3) :=
  (start_counts_and_fatal 3 5 (fun i => i == 0)).2 1 (by omega) rfl
    (fun i hi => by
      have : i = 0 := by omega
      subst this
      rfl)

/-! ## Claim C5 -/

/-- C5: context acquisition by the fetch task is deterministic round-robin
by the caller-supplied hint: on every non-empty pool the lookup succeeds
without blocking (`isSome`, first conjunct), hands out the pool element at
index `hint % poolSize` (second conjunct), and composing with the hint
assignment of `search_multiple_businesses` (`context_id = i % poolSize`,
then `context_pool[context_id % poolSize]` inside the task) selects that
same element (third conjunct). -/
theorem acquire_context_round_robin {α : Type} (pool : List α)
    (hpool : pool ≠ []) (hint : ℕ) :
    (acquire_context pool hint).isSome = true ∧
    acquire_context pool hint = pool[hint % pool.length]? ∧
    acquire_context pool (assigned_context_id hint pool.length) =
      acquire_context pool hint := by
  have hlen : 0 < pool.length := List.length_pos.mpr hpool
  have hmod : hint % pool.length < pool.length := Nat.mod_lt _ hlen
  refine ⟨?_, ?_, ?_⟩
  · simp [acquire_context, List.getElem?_eq_getElem hmod]
  · simp [acquire_context]
  · simp [acquire_context, assigned_context_id, Nat.mod_mod_of_dvd hint dvd_rfl]

/-- Witness for C5 on a concrete three-element pool with hint 7. -/
theorem acquire_context_round_robin_witness :
    (acquire_context [10, 20, 30] 7).isSome = true ∧
    acquire_context [10, 20, 30] 7 = [10, 20, 30][7 % [10, 20, 30].length]? ∧
    acquire_context [10, 20, 30] (assigned_context_id 7 [10, 20, 30].length) =
      acquire_context [10, 20, 30] 7 :=
  acquire_context_round_robin [10, 20, 30] (by decide) 7

/-! ## Supporting lemmas: fetch task -/

/-- If no candidate selector's click ever succeeds, the selector loop
exhausts the whole candidate list without setting `search_clicked`. -/
theorem tryClickSelectors_eq_false (obs : ℕ → SelectorObs)
    (h : ∀ i, obs i ≠ SelectorObs.clickOk) :
    ∀ (l : List String) (i : ℕ), tryClickSelectors obs l i = false := by
  intro l
  induction l with
  | nil => intro i; rfl
  | cons x rest ih =>
    intro i
    simp only [tryClickSelectors]
    cases hobs : obs i with
    | clickOk => exact absurd hobs (h i)
    | countRaises => exact ih (i + 1)
    | countZero => exact ih (i + 1)
    | clickRaises => exact ih (i + 1)

/-! ## Claim C6 -/

/-- C6: a task that reaches the submit-control search (navigation, the
query-box wait and the fill all succeed) and whose selector loop exhausts
all candidates without a successful click returns an outcome with
`success = false`, `error_message` equal to (hence containing)
"Could not find or click the search button", and empty `html_content`.
The failure is recorded in the returned `SearchResult`, never propagated:
the embedded task is a total function into `SearchResult` — the outer
`except` converts the raised exception into this outcome. -/
theorem submit_exhaustion_outcome (env : TaskEnv) (business_name : String)
    (t : ℚ) (hp : env.newPage = none) (hg : env.goto = none)
    (hw : env.waitQuery = none) (hf : env.fillQuery = none)
    (hs : ∀ i, env.selectorObs i ≠ SelectorObs.clickOk) :
    search_business_optimized env business_name t =
      { business_name := business_name, html_content := "", success := false,
        error_message := "Could not find or click the search button",
        search_time := t } := by
  have hclick : tryClickSelectors env.selectorObs searchButtonSelectors 0 = false :=
    tryClickSelectors_eq_false env.selectorObs hs searchButtonSelectors 0
  simp [search_business_optimized, runTaskBody, stepRun, hp, hg, hw, hf, hclick,
    Bind.bind, Except.bind]

/-- Concrete environment whose every selector query reports a zero count:
the selector loop finds no clickable submit control. -/
def envSelectorsExhausted : TaskEnv :=
  ⟨none, none, none, none, fun _ => SelectorObs.countZero, none,
   fun _ => ⟨some true, some true, some true⟩, Except.ok "page"⟩

/-- Witness for C6 at the concrete selector-exhausting environment. -/
theorem submit_exhaustion_outcome_witness :
    search_business_optimized envSelectorsExhausted "Acme" 1 =
      { business_name := "Acme", html_content := "", success := false,
        error_message := "Could not find or click the search button",
        search_time := 1 } :=
  submit_exhaustion_outcome envSelectorsExhausted "Acme" 1 rfl rfl rfl rfl
    (fun _ h => SelectorObs.noConfusion h)

/-! ## Claim C8 -/

/-- Reachable limiter states keep the invariant
`permits + holders = max_concurrent`: acquiring moves one permit to the
holder count, releasing moves it back. -/
theorem sem_invariant {max_concurrent : ℕ} {s : SemState}
    (h : SemReachable max_concurrent s) :
    s.permits + s.holders = max_concurrent := by
  induction h with
  | refl => rfl
  | tail _ step ih =>
    cases step with
    | acquire hp =>
      dsimp only at ih ⊢
      omega
    | release hh =>
      dsimp only at ih ⊢
      omega

/-- C8: under every schedule of task interleavings — every state reachable
by acquire/release steps from the freshly constructed
`asyncio.Semaphore(max_concurrent)` — at no instant are more than
`max_concurrent` fetch tasks between the limiter's acquire point and its
release point. -/
theorem limiter_holders_bound (max_concurrent : ℕ) (s : SemState)
    (h : SemReachable max_concurrent s) : s.holders ≤ max_concurrent := by
  have := sem_invariant h
  omega

/-- Witness for C8: with 5 permits, the state after one acquire (4 permits,
1 holder) is reachable and within the bound. -/
theorem limiter_holders_bound_witness : (SemState.mk 4 1).holders ≤ 5 :=
  limiter_holders_bound 5 ⟨4, 1⟩
    (Relation.ReflTransGen.single (SemStep.acquire ⟨5, 0⟩ (by decide)))

/-! ## Claim C9 -/

/-- C9: when the gather step of `search_multiple_businesses` delivers a raw
exception object at position `i`, the outcome constructed for that item has
`html_content = ""`, `success = false`, `error_message` the exception's
string, and `search_time` equal to the dataclass default `0.0` — the
constructor call at lines 262-267 passes no `search_time`, so the elapsed
time is not recorded on this path. -/
theorem gather_exception_outcome (business_names : List String)
    (outcome : ℕ → Except String SearchResult) (i : ℕ) (e : String)
    (hi : i < business_names.length) (he : outcome i = Except.error e) :
    (search_multiple_businesses business_names outcome)[i]? =
      some { business_name := business_names.getD i "", html_content := "",
             success := false, error_message := e, search_time := 0 } := by
  rw [search_multiple_businesses, List.getElem?_map, List.getElem?_range hi]
  simp [collectOne, he]

/-- Concrete gather-outcome function: task 1 delivers an exception, every
other task returns a successful record. -/
def outcomeWithError : ℕ → Except String SearchResult := fun i =>
  if i = 1 then Except.error "boom"
  else Except.ok { business_name := "ok", html_content := "h", success := true,
                   search_time := 2 }

/-- Witness for C9 at the concrete exception-delivering gather. -/
theorem gather_exception_outcome_witness :
    (search_multiple_businesses ["a", "b"] outcomeWithError)[1]? =
      some { business_name := ["a", "b"].getD 1 "", html_content := "",
             success := false, error_message := "boom", search_time := 0 } :=
  gather_exception_outcome ["a", "b"] outcomeWithError 1 "boom" (by decide) rfl

/-! ## Supporting lemmas: batching -/

/-- `search_multiple_businesses` produces one record per input name. -/
theorem search_multiple_length (business_names : List String)
    (outcome : ℕ → Except String SearchResult) :
    (search_multiple_businesses business_names outcome).length =
      business_names.length := by
  simp [search_multiple_businesses]

/-- The i-th record of `search_multiple_businesses` pairs the i-th input
name with the i-th task's gather entry. -/
theorem search_multiple_getElem? (business_names : List String)
    (outcome : ℕ → Except String SearchResult) (i : ℕ)
    (hi : i < business_names.length) :
    (search_multiple_businesses business_names outcome)[i]? =
      some (collectOne (business_names.getD i "") (outcome i)) := by
  rw [search_multiple_businesses, List.getElem?_map, List.getElem?_range hi]
  rfl

/-- The batch loop produces exactly one record per remaining input item. -/
theorem batch_run_aux_length (outcome : ℕ → Except String SearchResult)
    (b : ℕ) (hb : 0 < b) :
    ∀ fuel o l, l.length ≤ fuel →
      (batch_run_aux outcome b fuel o l).1.length = l.length := by
  intro fuel
  induction fuel with
  | zero =>
    intro o l h
    have hl : l = [] := List.length_eq_zero.mp (by omega)
    subst hl
    rfl
  | succ f ih =>
    intro o l h
    cases l with
    | nil => rfl
    | cons x xs =>
      have hdf : ((x :: xs).drop b).length ≤ f := by
        simp only [List.length_drop, List.length_cons]
        simp only [List.length_cons] at h
        omega
      simp only [batch_run_aux, List.length_append]
      rw [search_multiple_length, ih (o + b) ((x :: xs).drop b) hdf]
      simp only [List.length_take, List.length_drop, List.length_cons]
      omega

/-- The i-th record of the batch loop's output pairs the i-th remaining
input name with the gather entry of global task `o + i`: the concatenated
per-batch results stay in global input order. -/
theorem batch_run_aux_getElem? (outcome : ℕ → Except String SearchResult)
    (b : ℕ) (hb : 0 < b) :
    ∀ fuel o l, l.length ≤ fuel → ∀ i, i < l.length →
      (batch_run_aux outcome b fuel o l).1[i]? =
        some (collectOne (l.getD i "") (outcome (o + i))) := by
  intro fuel
  induction fuel with
  | zero =>
    intro o l h i hi
    have hl : l = [] := List.length_eq_zero.mp (by omega)
    subst hl
    simp at hi
  | succ f ih =>
    intro o l h i hi
    cases l with
    | nil => simp at hi
    | cons x xs =>
      simp only [batch_run_aux]
      by_cases hit : i < b
      · have hitake : i < ((x :: xs).take b).length := by
          simp only [List.length_take, List.length_cons]
          simp only [List.length_cons] at hi
          omega
        rw [List.getElem?_append_left
          (by rw [search_multiple_length]; exact hitake)]
        rw [search_multiple_getElem? _ _ i hitake]
        have hgd : ((x :: xs).take b).getD i "" = (x :: xs).getD i "" := by
          simp only [List.getD_eq_getElem?_getD]
          rw [List.getElem?_take_of_lt hit]
        rw [hgd]
      · push_neg at hit
        have htl : ((x :: xs).take b).length = b := by
          simp only [List.length_take, List.length_cons]
          simp only [List.length_cons] at hi
          omega
        have hlen_sm : (search_multiple_businesses ((x :: xs).take b)
            (fun j => outcome (o + j))).length = b := by
          rw [search_multiple_length, htl]
        rw [List.getElem?_append_right (by rw [hlen_sm]; exact hit), hlen_sm]
        have hdf : ((x :: xs).drop b).length ≤ f := by
          simp only [List.length_drop, List.length_cons]
          simp only [List.length_cons] at h
          omega
        have hdi : i - b < ((x :: xs).drop b).length := by
          simp only [List.length_drop, List.length_cons]
          simp only [List.length_cons] at hi
          omega
        rw [ih (o + b) ((x :: xs).drop b) hdf (i - b) hdi]
        have e1 : ((x :: xs).drop b).getD (i - b) "" = (x :: xs).getD i "" := by
          simp only [List.getD_eq_getElem?_getD]
          rw [List.getElem?_drop]
          have : b + (i - b) = i := by omega
          rw [this]
        have e2 : o + b + (i - b) = o + i := by omega
        rw [e1, e2]

/-- The batch loop pauses exactly once per batch except after the last:
its pause count is the number of batches minus one. -/
theorem batch_run_aux_pauses (outcome : ℕ → Except String SearchResult)
    (b : ℕ) (hb : 0 < b) :
    ∀ fuel o l, l.length ≤ fuel →
      (batch_run_aux outcome b fuel o l).2 =
        (toBatchesAux fuel b l).length - 1 := by
  intro fuel
  induction fuel with
  | zero =>
    intro o l h
    have hl : l = [] := List.length_eq_zero.mp (by omega)
    subst hl
    rfl
  | succ f ih =>
    intro o l h
    cases l with
    | nil => rfl
    | cons x xs =>
      have hdf : ((x :: xs).drop b).length ≤ f := by
        simp only [List.length_drop, List.length_cons]
        simp only [List.length_cons] at h
        omega
      simp only [batch_run_aux, toBatchesAux]
      by_cases hlt : b < (x :: xs).length
      · rw [if_pos hlt, ih (o + b) ((x :: xs).drop b) hdf]
        have hne : (x :: xs).drop b ≠ [] := by
          rw [Ne, List.drop_eq_nil_iff]
          omega
        obtain ⟨y, ys, hys⟩ : ∃ y ys, (x :: xs).drop b = y :: ys := by
          cases hd : (x :: xs).drop b with
          | nil => exact absurd hd hne
          | cons y ys => exact ⟨y, ys, rfl⟩
        obtain ⟨g, hg⟩ : ∃ g, f = g + 1 := by
          refine ⟨f - 1, ?_⟩
          have hd0 : 0 < ((x :: xs).drop b).length := by
            rw [hys]
            simp
          simp only [List.length_drop, List.length_cons] at hd0
          simp only [List.length_cons] at h
          omega
        subst hg
        rw [hys]
        simp only [toBatchesAux, List.length_cons]
        omega
      · rw [if_neg hlt]
        have hdrop : (x :: xs).drop b = [] := by
          rw [List.drop_eq_nil_iff]
          omega
        rw [hdrop]
        cases f <;> simp [batch_run_aux, toBatchesAux]

/-- The batches are a partition: concatenating them in order restores the
input list. -/
theorem toBatchesAux_flatten (b : ℕ) (hb : 0 < b) :
    ∀ fuel (l : List String), l.length ≤ fuel →
      (toBatchesAux fuel b l).flatten = l := by
  intro fuel
  induction fuel with
  | zero =>
    intro l h
    have hl : l = [] := List.length_eq_zero.mp (by omega)
    subst hl
    rfl
  | succ f ih =>
    intro l h
    cases l with
    | nil => rfl
    | cons x xs =>
      have hdf : ((x :: xs).drop b).length ≤ f := by
        simp only [List.length_drop, List.length_cons]
        simp only [List.length_cons] at h
        omega
      simp only [toBatchesAux, List.flatten_cons]
      rw [ih ((x :: xs).drop b) hdf]
      exact List.take_append_drop b (x :: xs)

/-- Every batch except possibly the last has exactly `batch_size`
elements. -/
theorem toBatchesAux_dropLast_sizes (b : ℕ) (hb : 0 < b) :
    ∀ fuel (l : List String), l.length ≤ fuel →
      ∀ c ∈ (toBatchesAux fuel b l).dropLast, c.length = b := by
  intro fuel
  induction fuel with
  | zero =>
    intro l h c hc
    have hl : l = [] := List.length_eq_zero.mp (by omega)
    subst hl
    simp [toBatchesAux] at hc
  | succ f ih =>
    intro l h c hc
    cases l with
    | nil => simp [toBatchesAux] at hc
    | cons x xs =>
      have hdf : ((x :: xs).drop b).length ≤ f := by
        simp only [List.length_drop, List.length_cons]
        simp only [List.length_cons] at h
        omega
      simp only [toBatchesAux] at hc
      cases hd : toBatchesAux f b ((x :: xs).drop b) with
      | nil =>
        rw [hd] at hc
        simp at hc
      | cons y ys =>
        rw [hd, List.dropLast_cons₂] at hc
        rcases List.mem_cons.mp hc with rfl | hc2
        · have hne : (x :: xs).drop b ≠ [] := by
            intro hnil
            rw [hnil] at hd
            cases f <;> simp [toBatchesAux] at hd
          have hbl : b < (x :: xs).length := by
            rw [Ne, List.drop_eq_nil_iff] at hne
            omega
          simp only [List.length_take]
          omega
        · exact ih ((x :: xs).drop b) hdf c (by rw [hd]; exact hc2)

/-- Every batch is non-empty and no larger than `batch_size`. -/
theorem toBatchesAux_sizes (b : ℕ) (hb : 0 < b) :
    ∀ fuel (l : List String), l.length ≤ fuel →
      ∀ c ∈ toBatchesAux fuel b l, 0 < c.length ∧ c.length ≤ b := by
  intro fuel
  induction fuel with
  | zero =>
    intro l h c hc
    have hl : l = [] := List.length_eq_zero.mp (by omega)
    subst hl
    simp [toBatchesAux] at hc
  | succ f ih =>
    intro l h c hc
    cases l with
    | nil => simp [toBatchesAux] at hc
    | cons x xs =>
      have hdf : ((x :: xs).drop b).length ≤ f := by
        simp only [List.length_drop, List.length_cons]
        simp only [List.length_cons] at h
        omega
      simp only [toBatchesAux] at hc
      rcases List.mem_cons.mp hc with rfl | hc2
      · constructor
        · simp only [List.length_take, List.length_cons]
          omega
        · simp only [List.length_take]
          omega
      · exact ih ((x :: xs).drop b) hdf c hc2

/-! ## Claim C1 -/

/-- C1: for every input list of N business names and every behavior of the
individual tasks (`outcome i` is what the gather step delivers for global
task `i` — a returned `SearchResult` or a raised exception), the batch
pipeline produces exactly N outcomes, and the i-th outcome is the outcome
of the i-th input item — in original input order across batch boundaries,
exceptions included. -/
theorem batch_pipeline_outcomes (business_names : List String) (b : ℕ)
    (outcome : ℕ → Except String SearchResult) (hb : 0 < b) :
    (batch_search_businesses business_names b outcome).1.length =
      business_names.length ∧
    ∀ i, i < business_names.length →
      (batch_search_businesses business_names b outcome).1[i]? =
        some (collectOne (business_names.getD i "") (outcome i)) := by
  constructor
  · exact batch_run_aux_length outcome b hb business_names.length 0
      business_names le_rfl
  · intro i hi
    have := batch_run_aux_getElem? outcome b hb business_names.length 0
      business_names le_rfl i hi
    simpa using this

/-- Witness for C1 at a three-name list, batch size 2, with task 1
delivering an exception. -/
theorem batch_pipeline_outcomes_witness :
    (batch_search_businesses ["a", "b", "c"] 2 outcomeWithError).1.length =
      (["a", "b", "c"] : List String).length ∧
    (batch_search_businesses ["a", "b", "c"] 2 outcomeWithError).1[1]? =
      some (collectOne ((["a", "b", "c"] : List String).getD 1 "")
        (outcomeWithError 1)) :=
  ⟨(batch_pipeline_outcomes ["a", "b", "c"] 2 outcomeWithError (by omega)).1,
   (batch_pipeline_outcomes ["a", "b", "c"] 2 outcomeWithError (by omega)).2 1
     (by decide)⟩

/-! ## Claim C7 -/

/-- C7: the orchestrator partitions the input into contiguous batches of
size `batch_size` (the flattening of the batches is the input; every batch
but the last has exactly `batch_size` items; every batch is non-empty and
at most `batch_size`), and pauses exactly once between consecutive batches
and never after the last one: for B batches, B - 1 pauses (`Nat`
subtraction also covers the empty input: 0 batches, 0 pauses). -/
theorem batch_partition_and_pauses (business_names : List String) (b : ℕ)
    (outcome : ℕ → Except String SearchResult) (hb : 0 < b) :
    (batch_search_businesses business_names b outcome).2 =
      (toBatches b business_names).length - 1 ∧
    (toBatches b business_names).flatten = business_names ∧
    (∀ c ∈ (toBatches b business_names).dropLast, c.length = b) ∧
    (∀ c ∈ toBatches b business_names, 0 < c.length ∧ c.length ≤ b) :=
  ⟨batch_run_aux_pauses outcome b hb business_names.length 0
      business_names le_rfl,
   toBatchesAux_flatten b hb business_names.length business_names le_rfl,
   toBatchesAux_dropLast_sizes b hb business_names.length business_names le_rfl,
   toBatchesAux_sizes b hb business_names.length business_names le_rfl⟩

/-- Concrete all-successful gather-outcome function. -/
def outcomeAllOk : ℕ → Except String SearchResult := fun _ =>
  Except.ok { business_name := "n", html_content := "h", success := true }

/-- Witness for C7 at the spec's scenario: 7 items, batch size 3 — batch
sizes [3, 3, 1] and exactly 2 inter-batch pauses. -/
theorem batch_partition_and_pauses_witness :
    (batch_search_businesses ["a", "b", "c", "d", "e", "f", "g"] 3
        outcomeAllOk).2 =
      (toBatches 3 ["a", "b", "c", "d", "e", "f", "g"]).length - 1 ∧
    (toBatches 3 ["a", "b", "c", "d", "e", "f", "g"]).map List.length =
      [3, 3, 1] ∧
    (batch_search_businesses ["a", "b", "c", "d", "e", "f", "g"] 3
        outcomeAllOk).2 = 2 :=
  ⟨(batch_partition_and_pauses ["a", "b", "c", "d", "e", "f", "g"] 3
      outcomeAllOk (by omega)).1,
   by decide, by decide⟩

end UnionCoop
